import Mathlib

/-!
Verification of the core of `hybrid-code-interceptor-sandbox` (src/src/index.ts).

The development shallowly embeds the two decision-making components of the
worker: the security analyzer (`analyzeSecurity`, index.ts lines 226-284) and
the bounded executor (`executeJavaScript`, index.ts lines 287-349), together
with the block branch of the request handler (`handleExecute`, lines 150-203).

Modelling conventions:
- JS strings are Lean `String`s / `List Char`.
- JS numbers are modelled by exact rational arithmetic (`ℚ`); every value
  that actually arises here is a small sum of multiples of 1/10, for which
  exact arithmetic and IEEE doubles agree on all the properties stated below.
- The fifteen regular expressions of the pattern catalogue are embedded as
  values of a small regex language `RE` that is exactly expressive enough for
  them (literal runs, one whitespace char, `\s*`, concatenation, alternation,
  and a case-insensitivity flag on literal runs, mirroring the `i` flag).
- The evaluated user script is modelled by its observable behaviour: the list
  of console-channel calls it performs followed by how it leaves the
  `new Function` wrapper — fall-through, a thrown error, or the script's own
  top-level `return`, whose value may be nullish, a plain value, or a
  thenable.  The thenable case is the one that can leave the evaluation
  promise pending when the race is constructed, letting the timer win.
-/

/-- Severity levels of the pattern catalogue, index.ts line 29. -/
inductive Severity where
  | low
  | medium
  | high
deriving DecidableEq, Repr

/-- The tiny regex language needed for the fifteen patterns of
`dangerousPatterns` (index.ts lines 235-251): a literal run of characters
(with a flag telling whether it is matched case-insensitively, mirroring the
regex `i` flag), a single whitespace character `\s`, the star `\s*`,
concatenation and alternation. -/
inductive RE where
  | lits : Bool → List Char → RE
  | ws1 : RE
  | wsStar : RE
  | seq : RE → RE → RE
  | alt : RE → RE → RE
deriving DecidableEq, Repr

/-- Character class of the JavaScript regex escape `\s`. -/
def isJsWs (c : Char) : Bool :=
  c == ' ' || c == '\t' || c == '\n' || c == '\x0b' || c == '\x0c' || c == '\r' ||
  c == '\u00A0' || c == '\u1680' || (decide ('\u2000' ≤ c) && decide (c ≤ '\u200A')) ||
  c == '\u2028' || c == '\u2029' || c == '\u202F' || c == '\u205F' ||
  c == '\u3000' || c == '\uFEFF'

/-- Character comparison used when matching a literal run: exact equality, or
equality up to `Char.toLower` when the case-insensitive flag is set. -/
def chEq (ci : Bool) (c p : Char) : Bool :=
  if ci then c.toLower == p.toLower else c == p

/-- Match the literal run `ps` against a prefix of the input, returning the
remaining input on success. -/
def consumeLit (ci : Bool) : List Char → List Char → Option (List Char)
  | [], cs => some cs
  | _ :: _, [] => none
  | p :: ps, c :: cs => if chEq ci c p then consumeLit ci ps cs else none

/-- All remainders obtainable by consuming zero or more `\s` characters. -/
def wsSkips : List Char → List (List Char)
  | [] => [[]]
  | c :: cs => (c :: cs) :: (if isJsWs c then wsSkips cs else [])

/-- All remainders obtainable by matching `re` against a prefix of the
input. -/
def reMatch : RE → List Char → List (List Char)
  | .lits ci ps, cs =>
    match consumeLit ci ps cs with
    | some r => [r]
    | none => []
  | .ws1, [] => []
  | .ws1, c :: cs => if isJsWs c then [cs] else []
  | .wsStar, cs => wsSkips cs
  | .seq a b, cs => (reMatch a cs).flatMap (reMatch b)
  | .alt a b, cs => reMatch a cs ++ reMatch b cs

/-- JavaScript `regex.test(line)`: the pattern matches starting at some
position of the input. -/
def reTest (re : RE) (cs : List Char) : Bool :=
  cs.tails.any fun t => !(reMatch re t).isEmpty

/-- One entry of the `dangerousPatterns` table (index.ts lines 235-251). -/
structure PatternRule where
  pattern : RE
  name : String
  description : String
  severity : Severity
deriving DecidableEq

/-- Shorthand for a pattern of the shape `lit\s*lit` such as `/eval\s*\(/`. -/
def gap2 (ci : Bool) (a b : List Char) : RE :=
  .seq (.lits ci a) (.seq .wsStar (.lits ci b))

/-- Shorthand for a pattern of the shape `lit\s*lit\s*lit\s*lit` such as
`/while\s*\(\s*true\s*\)/`. -/
def gap4 (ci : Bool) (a b c d : List Char) : RE :=
  .seq (.lits ci a) (.seq .wsStar (.seq (.lits ci b)
    (.seq .wsStar (.seq (.lits ci c) (.seq .wsStar (.lits ci d))))))

/-- The pattern catalogue, transcribed rule by rule from index.ts lines
235-251.  Only the six rules carrying the regex flag `i` are
case-insensitive; `/eval\s*\(/`, `/Function\s*\(/`, `/process\./` and
`/fetch\s*\(/` in particular are case-sensitive in the source. -/
def dangerousPatterns : List PatternRule :=
  [ ⟨gap2 false "eval".data "(".data, "eval()", "Dynamic code execution", .high⟩,
    ⟨gap2 false "Function".data "(".data, "Function()", "Dynamic function creation", .high⟩,
    ⟨.seq (.lits false "import".data) (.seq .ws1 .wsStar), "import statements", "Module imports", .medium⟩,
    ⟨gap2 false "require".data "(".data, "require()", "Module requires", .medium⟩,
    ⟨.lits false "process.".data, "process object", "Process access", .high⟩,
    ⟨.lits false "global.".data, "global object", "Global object access", .medium⟩,
    ⟨.lits false "window.".data, "window object", "DOM access", .low⟩,
    ⟨.lits false "document.".data, "document object", "DOM access", .low⟩,
    ⟨gap2 false "fetch".data "(".data, "fetch()", "Network requests", .high⟩,
    ⟨.lits true "XMLHttpRequest".data, "XHR", "Network requests", .high⟩,
    ⟨.lits true "WebSocket".data, "WebSocket", "WebSocket connections", .high⟩,
    ⟨.alt (.lits true "localStorage".data) (.lits true "sessionStorage".data), "storage", "Browser storage access", .medium⟩,
    ⟨.alt (.lits true "setTimeout".data) (.lits true "setInterval".data), "timers", "Timer functions", .medium⟩,
    ⟨gap4 true "while".data "(".data "true".data ")".data, "infinite loop", "Potential infinite loop", .high⟩,
    ⟨gap4 true "for".data "(".data ";;".data ")".data, "infinite loop", "Potential infinite loop", .high⟩ ]

/-- One recorded violation (index.ts lines 25-30). -/
structure SecurityViolation where
  line : Nat
  pattern : String
  description : String
  severity : Severity
deriving DecidableEq, Repr

/-- JavaScript `code.split('\n')`: split at every newline, keeping empty
pieces; the empty string yields the single empty line. -/
def splitLines : List Char → List (List Char)
  | [] => [[]]
  | c :: cs =>
    if c = '\n' then [] :: splitLines cs
    else (c :: (splitLines cs).headD []) :: (splitLines cs).tail

/-- The violations contributed by one line: one entry per matching rule, in
catalogue order (the inner `forEach` of index.ts lines 256-265). -/
def lineViolations (lineNum : Nat) (line : List Char) : List SecurityViolation :=
  dangerousPatterns.filterMap fun r =>
    if reTest r.pattern line then some ⟨lineNum, r.name, r.description, r.severity⟩ else none

/-- The violations of a list of lines, numbering lines from `lineNum` (the
outer `forEach` of index.ts lines 254-266, with its `index + 1`). -/
def violationsFrom (lineNum : Nat) : List (List Char) → List SecurityViolation
  | [] => []
  | l :: ls => lineViolations lineNum l ++ violationsFrom (lineNum + 1) ls

/-- All violations of a source string, in document order. -/
def violationsOf (code : String) : List SecurityViolation :=
  violationsFrom 1 (splitLines code.data)

/-- JavaScript `code.match(/lit/g) || []).length`: the number of
non-overlapping occurrences of a literal pattern, scanning left to right. -/
def countOccurs (pat : List Char) : List Char → Nat
  | [] => 0
  | c :: rest =>
    match pat with
    | [] => 0
    | p :: ps =>
      if chEq false c p && (consumeLit false ps rest).isSome then
        1 + countOccurs pat (rest.drop ps.length)
      else countOccurs pat rest
termination_by cs => cs.length
decreasing_by
  · simp only [List.length_cons, List.length_drop]
    omega
  · simp only [List.length_cons]
    omega

/-- JavaScript `Math.min` on two numbers, written so that it evaluates by
kernel reduction.  It agrees with `min` on `ℚ`. -/
def ratMin (a b : ℚ) : ℚ := if a ≤ b then a else b

/-- The analyzer's result record (index.ts lines 226-230). -/
structure SecurityReport where
  allowed : Bool
  violations : List SecurityViolation
  complexityScore : ℚ
deriving DecidableEq, Repr

/-- The security analyzer, `analyzeSecurity` of index.ts lines 226-284:
line-by-line pattern scan, complexity heuristic
(`violations*10 + lines/10 + functions*5 + classes*3`, capped at 100 by
`Math.min`), and the allow policy `!hasHighSeverity && !hasTooManyViolations`
with the threshold `violations.length > 5`.  The division by 10 is exact
rational division, as in JS number arithmetic it is float division (not
integer division). -/
def analyzeSecurity (code : String) : SecurityReport :=
  let violations := violationsOf code
  let complexityScore : ℚ :=
    (violations.length : ℚ) * 10 + ((splitLines code.data).length : ℚ) / 10 +
      (countOccurs "function".data code.data : ℚ) * 5 +
      (countOccurs "class".data code.data : ℚ) * 3
  let hasHighSeverity := violations.any fun v => v.severity == Severity.high
  let hasTooManyViolations := decide (violations.length > 5)
  { allowed := !hasHighSeverity && !hasTooManyViolations
    violations := violations
    complexityScore := ratMin complexityScore 100 }


/-- A JavaScript value as observed by the sandbox console (index.ts lines
299-314): whether `typeof arg === 'object'` holds, its `String(arg)`
rendering, and its `JSON.stringify(arg, null, 2)` rendering. -/
structure JSValue where
  isObject : Bool
  asString : String
  asJson : String

/-- How `sandboxConsole.log` renders one argument (index.ts lines 301-303):
objects via `JSON.stringify(arg, null, 2)`, everything else via
`String(arg)`. -/
def renderLogArg (v : JSValue) : String :=
  if v.isObject then v.asJson else v.asString

/-- JavaScript `args.join(' ')` after mapping. -/
def joinSpace (xs : List String) : String :=
  String.intercalate " " xs

/-- The state accumulated by the restricted evaluation scope: the `output`
buffer and the `error` buffer (the local variables `output` and `error` of
`executeJavaScript`, index.ts lines 293-294). -/
structure ConsoleState where
  output : String
  error : String
deriving DecidableEq, Repr

/-- One call of the evaluated script into the restricted console surface.
The scope exposes exactly these four channels (index.ts lines 299-314). -/
inductive ConsoleEvent where
  | log : List JSValue → ConsoleEvent
  | error : List JSValue → ConsoleEvent
  | warn : List JSValue → ConsoleEvent
  | info : List JSValue → ConsoleEvent

/-- `sandboxConsole.log` (index.ts lines 300-304): appends the
space-joined, object-serialising rendering of the arguments plus a newline
to the output buffer. -/
def consoleLog (args : List JSValue) (st : ConsoleState) : ConsoleState :=
  { st with output := st.output ++ joinSpace (args.map renderLogArg) ++ "\n" }

/-- `sandboxConsole.error` (index.ts lines 305-307): appends the
space-joined `String(arg)` rendering plus a newline to the ERROR buffer,
not the output buffer. -/
def consoleError (args : List JSValue) (st : ConsoleState) : ConsoleState :=
  { st with error := st.error ++ joinSpace (args.map JSValue.asString) ++ "\n" }

/-- `sandboxConsole.warn` (index.ts lines 308-310): appends
`"[WARN] " ++ ...` to the output buffer. -/
def consoleWarn (args : List JSValue) (st : ConsoleState) : ConsoleState :=
  { st with output := st.output ++ "[WARN] " ++ joinSpace (args.map JSValue.asString) ++ "\n" }

/-- `sandboxConsole.info` (index.ts lines 311-313): appends
`"[INFO] " ++ ...` to the output buffer. -/
def consoleInfo (args : List JSValue) (st : ConsoleState) : ConsoleState :=
  { st with output := st.output ++ "[INFO] " ++ joinSpace (args.map JSValue.asString) ++ "\n" }

/-- Dispatch one console call to its channel. -/
def applyEvent (st : ConsoleState) : ConsoleEvent → ConsoleState
  | .log args => consoleLog args st
  | .error args => consoleError args st
  | .warn args => consoleWarn args st
  | .info args => consoleInfo args st

/-- A non-thenable JavaScript value smuggled out of the wrapper by the
script's own top-level `return` statement, abstracted to exactly what
index.ts lines 336-340 observe of it:
- `nullish m`: the value is `null` or `undefined`.  Reading
  `result.success` on line 336 then throws a `TypeError`; `m` is that
  error's message, which the outer catch (lines 342-346) extracts.
- `attrs t e`: any other non-thenable value; `t` is the JS truthiness of
  its `.success` member (for `return 42` that member is `undefined`, hence
  falsy), and `e` stands for its `.error` member as it ends up in the
  `error` slot of the result when the failure branch runs.  (`e` is fully
  script-controlled; a missing `.error` member is JS `undefined`, which no
  claim here distinguishes from its rendering.) -/
inductive UserValue where
  | nullish : String → UserValue
  | attrs : Bool → String → UserValue
deriving DecidableEq

/-- The fate of a thenable smuggled out by a top-level `return`.
`Promise.resolve` on line 330 adopts such a value instead of settling at
once, so the evaluation promise stays pending:
- `fulfilled d v`: the thenable chain flattens to the non-thenable value
  `v` after `d` milliseconds;
- `rejected d m`: it rejects after `d` milliseconds; `m` is the message the
  outer catch derives from the rejection reason (`err.message` for an
  `Error`, the fallback `Execution failed` otherwise);
- `never`: it never settles (e.g. the source `return new Promise(() => {})`). -/
inductive ThenableFate where
  | fulfilled : Nat → UserValue → ThenableFate
  | rejected : Nat → String → ThenableFate
  | never : ThenableFate
deriving DecidableEq

/-- How the evaluated script leaves the wrapper of index.ts lines 318-326.
The wrapper has three exits, not two: fall through to the wrapper's own
`return { success: true, error: '' }`; throw, caught by the inner catch
which returns `{ success: false, error: error.message || String(error) }`
(the `String` argument is the extracted message); or execute a top-level
`return` of the script's own, handing an arbitrary value — possibly a
thenable — straight to `Promise.resolve`. -/
inductive ScriptOutcome where
  | normal : ScriptOutcome
  | thrown : String → ScriptOutcome
  | returned : UserValue → ScriptOutcome
  | thenable : ThenableFate → ScriptOutcome
deriving DecidableEq

/-- The observable behaviour of one evaluated script: the console calls it
performs, in order, up to the moment the race settles (a script can also
schedule calls from thenable callbacks), followed by how it leaves the
wrapper. -/
structure Script where
  events : List ConsoleEvent
  outcome : ScriptOutcome

/-- The console state once the script has run all its events, starting from
empty buffers. -/
def runEvents (sc : Script) : ConsoleState :=
  sc.events.foldl applyEvent ⟨"", ""⟩

/-- The record the wrapper itself builds on its fall-through and catch
exits (index.ts lines 322 and 324). -/
structure SafeResult where
  success : Bool
  error : String

/-- A value with which the evaluation promise can become fulfilled: the
wrapper's own `{success, error}` record, or a user value handed out by a
top-level `return`. -/
inductive Fulfilled where
  | wrapper : SafeResult → Fulfilled
  | user : UserValue → Fulfilled

/-- The rejection message built by the timer branch on index.ts line 332:
the template is `Execution timeout after ${timeout}ms`, where `timeout` is
the timeout argument in SECONDS (the actual timer delay is
`timeout * 1000` milliseconds). -/
def timeoutMessage (timeout : Nat) : String :=
  "Execution timeout after " ++ toString timeout ++ "ms"

/-- The state of a promise at the moment `Promise.race` is constructed:
already settled, or pending and due to settle with the given value after
the given delay in milliseconds (necessarily in a later event-loop turn),
or pending forever. -/
inductive PromiseState (α : Type) where
  | settled : α → PromiseState α
  | pendingUntil : Nat → α → PromiseState α
  | never : PromiseState α

/-- The state of `Promise.resolve(safeExecute(sandboxConsole))` at the
moment the race on lines 329-334 is constructed.  `safeExecute` is called
synchronously while the race array is built; when it returns a plain value
— its own record on the fall-through and catch exits, or a non-thenable
user value from a top-level `return` — `Promise.resolve` yields an
already-settled promise.  When the script's `return` hands out a thenable,
`Promise.resolve` adopts it instead, and the promise settles only when —
if ever — the thenable does. -/
def evalPromise (sc : Script) : PromiseState (Except String Fulfilled) :=
  match sc.outcome with
  | .normal => .settled (Except.ok (Fulfilled.wrapper ⟨true, ""⟩))
  | .thrown msg => .settled (Except.ok (Fulfilled.wrapper ⟨false, msg⟩))
  | .returned v => .settled (Except.ok (Fulfilled.user v))
  | .thenable (.fulfilled d v) => .pendingUntil d (Except.ok (Fulfilled.user v))
  | .thenable (.rejected d m) => .pendingUntil d (Except.error m)
  | .thenable .never => .never

/-- `Promise.race [p, timer]` as awaited on lines 329-334, where the second
promise is a timer that settles (with the rejection `b`) after `d`
milliseconds.  A first promise that is already settled wins outright: its
reaction is enqueued as a microtask at once, before the timer macrotask can
run, even for a zero timeout.  A pending first promise wins iff it settles
no later than the timer (ties modelled in favour of the first array
element); a never-settling first promise loses to the timer. -/
def raceTimer {α : Type} (p : PromiseState α) (d : Nat) (b : α) : α :=
  match p with
  | .settled a => a
  | .pendingUntil t a => if t ≤ d then a else b
  | .never => b

/-- The raced value of index.ts lines 329-334: the evaluation promise
against the timer that rejects with the timeout message after
`timeout * 1000` milliseconds. -/
def settleRace (sc : Script) (timeout : Nat) : Except String Fulfilled :=
  raceTimer (evalPromise sc) (timeout * 1000) (Except.error (timeoutMessage timeout))

/-- The result record of `executeJavaScript` (index.ts lines 287-292). -/
structure ExecResult where
  success : Bool
  output : String
  error : String
  exitCode : Nat
deriving DecidableEq, Repr

/-- The tail of `executeJavaScript` (index.ts lines 336-348), case by case:
- fulfilled with the wrapper's record: `success = result.success`; on
  failure the `error` variable is OVERWRITTEN with `result.error` and
  `exitCode` becomes 1, on success it keeps the accumulated `console.error`
  text;
- fulfilled with a nullish user value: line 336 throws a `TypeError`,
  which the outer catch maps like any other failure;
- fulfilled with any other user value: lines 336-340 read its `.success`
  truthiness and `.error` member exactly as they would the wrapper's
  record;
- rejected (the timer, or a rejecting thenable): the outer catch sets
  `success = false`, `error` to the derived message, `exitCode = 1`.
In every case `output` is the accumulated output buffer. -/
def finishExec (st : ConsoleState) (raced : Except String Fulfilled) : ExecResult :=
  match raced with
  | .ok (.wrapper r) =>
    if r.success then ⟨true, st.output, st.error, 0⟩
    else ⟨false, st.output, r.error, 1⟩
  | .ok (.user (.nullish m)) => ⟨false, st.output, m, 1⟩
  | .ok (.user (.attrs t e)) =>
    if t then ⟨true, st.output, st.error, 0⟩
    else ⟨false, st.output, e, 1⟩
  | .error msg => ⟨false, st.output, msg, 1⟩

/-- `executeJavaScript(code, timeout)` of index.ts lines 287-349, for a
script with the given observable behaviour. -/
def executeJavaScript (sc : Script) (timeout : Nat) : ExecResult :=
  finishExec (runEvents sc) (settleRace sc timeout)

/-- The JSON body produced by `handleExecute` (index.ts lines 150-203),
with its snake_case field names. -/
structure ExecuteResponse where
  success : Bool
  output : String
  error : String
  exit_code : Nat
  execution_time : ℚ
  security_report : SecurityReport
deriving DecidableEq, Repr

/-- The decision part of `handleExecute` (index.ts lines 150-203): analyze
the code; if blocked, answer with the fixed block payload carrying the
elapsed wall-clock seconds `(Date.now() - startTime) / 1000` measured at the
return point (passed here as the parameter `elapsed`); otherwise run the
script and answer with its result and a re-wrapped `allowed: true` report.
The script's observable behaviour is passed separately, since the embedding
does not interpret JavaScript source. -/
def handleExecute (code : String) (sc : Script) (timeout : Nat) (elapsed : ℚ) : ExecuteResponse :=
  let securityReport := analyzeSecurity code
  if securityReport.allowed then
    let result := executeJavaScript sc timeout
    ⟨result.success, result.output, result.error, result.exitCode, elapsed,
      ⟨true, securityReport.violations, securityReport.complexityScore⟩⟩
  else
    ⟨false, "", "Code blocked by security policy", 1, elapsed, securityReport⟩


/-- Does `sub` occur, matched with comparator `chEq ci`, starting at some
position of `cs`? -/
def containsB (ci : Bool) (sub cs : List Char) : Bool :=
  cs.tails.any fun t => (consumeLit ci sub t).isSome

/-- Case-sensitive substring occurrence on strings. -/
def containsSub (sub s : String) : Bool :=
  containsB false sub.data s.data

/-- Case-insensitive (up to `Char.toLower`) substring occurrence on
strings, the sense in which the regex flag `i` makes a literal pattern
case-insensitive. -/
def containsSubCI (sub s : String) : Bool :=
  containsB true sub.data s.data

theorem ratMin_eq_min (a b : ℚ) : ratMin a b = min a b := by
  simp [ratMin, min_def]

theorem consumeLit_append {ci : Bool} : ∀ {p q t r : List Char},
    consumeLit ci (p ++ q) t = some r →
    ∃ m, consumeLit ci p t = some m ∧ consumeLit ci q m = some r := by
  intro p
  induction p with
  | nil => intro q t r h; exact ⟨t, rfl, h⟩
  | cons a p ih =>
    intro q t r h
    cases t with
    | nil => simp [consumeLit] at h
    | cons c t =>
      by_cases hc : chEq ci c a
      · simp only [List.cons_append, consumeLit, hc, if_true] at h ⊢
        exact ih h
      · simp [consumeLit, hc] at h

theorem mem_wsSkips_self (cs : List Char) : cs ∈ wsSkips cs := by
  cases cs with
  | nil => simp [wsSkips]
  | cons c cs => simp [wsSkips]

theorem mem_reMatch_lits {ci : Bool} {ps cs r : List Char}
    (h : consumeLit ci ps cs = some r) : r ∈ reMatch (RE.lits ci ps) cs := by
  simp [reMatch, h]

theorem mem_reMatch_seq {a b : RE} {cs m r : List Char}
    (h1 : m ∈ reMatch a cs) (h2 : r ∈ reMatch b m) :
    r ∈ reMatch (RE.seq a b) cs := by
  simp only [reMatch, List.mem_flatMap]
  exact ⟨m, h1, h2⟩

theorem mem_reMatch_gap2 {ci : Bool} {a b t r : List Char}
    (h : consumeLit ci (a ++ b) t = some r) : r ∈ reMatch (gap2 ci a b) t := by
  obtain ⟨m, h1, h2⟩ := consumeLit_append h
  exact mem_reMatch_seq (mem_reMatch_lits h1)
    (mem_reMatch_seq (mem_wsSkips_self m) (mem_reMatch_lits h2))

theorem mem_reMatch_gap4 {ci : Bool} {a b c d t r : List Char}
    (h : consumeLit ci (a ++ b ++ c ++ d) t = some r) :
    r ∈ reMatch (gap4 ci a b c d) t := by
  obtain ⟨m1, h1, h2⟩ := consumeLit_append (p := a ++ b ++ c) h
  obtain ⟨m2, h3, h4⟩ := consumeLit_append (p := a ++ b) h1
  obtain ⟨m3, h5, h6⟩ := consumeLit_append (p := a) h3
  exact mem_reMatch_seq (mem_reMatch_lits h5)
    (mem_reMatch_seq (mem_wsSkips_self m3)
      (mem_reMatch_seq (mem_reMatch_lits h6)
        (mem_reMatch_seq (mem_wsSkips_self m2)
          (mem_reMatch_seq (mem_reMatch_lits h4)
            (mem_reMatch_seq (mem_wsSkips_self m1) (mem_reMatch_lits h2))))))

theorem reTest_of_tail {re : RE} {t cs : List Char}
    (ht : t ∈ cs.tails) (hm : reMatch re t ≠ []) : reTest re cs = true := by
  simp only [reTest, List.any_eq_true]
  exact ⟨t, ht, by simpa [List.isEmpty_iff] using hm⟩

theorem splitLines_ne_nil (cs : List Char) : splitLines cs ≠ [] := by
  cases cs with
  | nil => simp [splitLines]
  | cons c cs =>
    simp only [splitLines]
    split <;> simp

theorem headD_splitLines_cons (c : Char) (cs : List Char) :
    (splitLines (c :: cs)).headD [] =
      if c = '\n' then [] else c :: (splitLines cs).headD [] := by
  simp only [splitLines]
  split <;> simp

theorem headD_mem_splitLines (cs : List Char) :
    (splitLines cs).headD [] ∈ splitLines cs := by
  obtain ⟨l, ls, h⟩ := List.exists_cons_of_ne_nil (splitLines_ne_nil cs)
  rw [h]
  simp

theorem self_mem_tails (l : List Char) : l ∈ l.tails :=
  (List.mem_tails l l).mpr (List.suffix_refl l)

theorem consumeLit_firstLine {ci : Bool} : ∀ {sub cs r : List Char},
    (∀ p ∈ sub, chEq ci '\n' p = false) →
    consumeLit ci sub cs = some r →
    ∃ w, consumeLit ci sub ((splitLines cs).headD []) = some w := by
  intro sub
  induction sub with
  | nil => intro cs r _ _; exact ⟨_, rfl⟩
  | cons p ps ih =>
    intro cs r hnl h
    cases cs with
    | nil => simp [consumeLit] at h
    | cons c cs =>
      by_cases hc : chEq ci c p
      · have hcn : c ≠ '\n' := by
          intro he
          rw [he] at hc
          exact absurd hc (by simp [hnl p (by simp)])
        rw [headD_splitLines_cons, if_neg hcn]
        simp only [consumeLit, hc, if_true] at h ⊢
        exact ih (fun q hq => hnl q (by simp [hq])) h
      · simp [consumeLit, hc] at h

theorem containsB_cons {ci : Bool} {sub cs : List Char} (c : Char)
    (h : containsB ci sub cs = true) : containsB ci sub (c :: cs) = true := by
  simp only [containsB, List.tails_cons, List.any_cons, Bool.or_eq_true] at *
  exact Or.inr h

theorem containsB_to_line {ci : Bool} {sub : List Char} (hne : sub ≠ [])
    (hnl : ∀ p ∈ sub, chEq ci '\n' p = false) :
    ∀ {cs : List Char}, containsB ci sub cs = true →
    ∃ line ∈ splitLines cs, containsB ci sub line = true := by
  intro cs
  induction cs with
  | nil =>
    intro h
    obtain ⟨p, ps, rfl⟩ := List.exists_cons_of_ne_nil hne
    simp [containsB, consumeLit] at h
  | cons c cs ih =>
    intro h
    simp only [containsB, List.tails_cons, List.any_cons, Bool.or_eq_true] at h
    rcases h with hhead | htail
    · obtain ⟨r, hr⟩ := Option.isSome_iff_exists.mp hhead
      obtain ⟨w, hw⟩ := consumeLit_firstLine hnl hr
      refine ⟨(splitLines (c :: cs)).headD [], headD_mem_splitLines _, ?_⟩
      simp only [containsB, List.any_eq_true]
      refine ⟨(splitLines (c :: cs)).headD [], self_mem_tails _, ?_⟩
      rw [hw]
      rfl
    · obtain ⟨line, hmem, hline⟩ := ih htail
      by_cases hcn : c = '\n'
      · refine ⟨line, ?_, hline⟩
        simp only [splitLines, hcn, if_true]
        exact List.mem_cons_of_mem _ hmem
      · obtain ⟨l0, ls, hsplit⟩ := List.exists_cons_of_ne_nil (splitLines_ne_nil cs)
        rw [hsplit] at hmem
        rcases List.mem_cons.mp hmem with rfl | hmem2
        · refine ⟨c :: line, ?_, containsB_cons c hline⟩
          simp only [splitLines, hcn, if_false, hsplit]
          simp
        · refine ⟨line, ?_, hline⟩
          simp only [splitLines, hcn, if_false, hsplit]
          simp only [List.headD_cons, List.tail_cons]
          exact List.mem_cons_of_mem _ hmem2

theorem reTest_lits_of_containsB {ci : Bool} {a line : List Char}
    (h : containsB ci a line = true) : reTest (RE.lits ci a) line = true := by
  simp only [containsB, List.any_eq_true] at h
  obtain ⟨t, ht, hs⟩ := h
  obtain ⟨r, hr⟩ := Option.isSome_iff_exists.mp hs
  exact reTest_of_tail ht (List.ne_nil_of_mem (mem_reMatch_lits hr))

theorem reTest_gap2_of_containsB {ci : Bool} {a b line : List Char}
    (h : containsB ci (a ++ b) line = true) : reTest (gap2 ci a b) line = true := by
  simp only [containsB, List.any_eq_true] at h
  obtain ⟨t, ht, hs⟩ := h
  obtain ⟨r, hr⟩ := Option.isSome_iff_exists.mp hs
  exact reTest_of_tail ht (List.ne_nil_of_mem (mem_reMatch_gap2 hr))

theorem reTest_gap4_of_containsB {ci : Bool} {a b c d line : List Char}
    (h : containsB ci (a ++ b ++ c ++ d) line = true) :
    reTest (gap4 ci a b c d) line = true := by
  simp only [containsB, List.any_eq_true] at h
  obtain ⟨t, ht, hs⟩ := h
  obtain ⟨r, hr⟩ := Option.isSome_iff_exists.mp hs
  exact reTest_of_tail ht (List.ne_nil_of_mem (mem_reMatch_gap4 hr))

theorem analyzeSecurity_violations (code : String) :
    (analyzeSecurity code).violations = violationsOf code := rfl

theorem analyzeSecurity_allowed (code : String) :
    (analyzeSecurity code).allowed =
      (!(violationsOf code).any (fun v => v.severity == Severity.high) &&
        !decide (5 < (violationsOf code).length)) := rfl

theorem mem_lineViolations {r : PatternRule} {line : List Char} (n : Nat)
    (hr : r ∈ dangerousPatterns) (hfires : reTest r.pattern line = true) :
    (⟨n, r.name, r.description, r.severity⟩ : SecurityViolation) ∈ lineViolations n line := by
  simp only [lineViolations, List.mem_filterMap]
  exact ⟨r, hr, by simp [hfires]⟩

theorem mem_violationsFrom {r : PatternRule} {line : List Char} :
    ∀ {ls : List (List Char)} {n : Nat}, line ∈ ls → r ∈ dangerousPatterns →
    reTest r.pattern line = true →
    ∃ v ∈ violationsFrom n ls, v.pattern = r.name ∧ v.severity = r.severity := by
  intro ls
  induction ls with
  | nil => intro n h; simp at h
  | cons l ls ih =>
    intro n hmem hr hfires
    rcases List.mem_cons.mp hmem with rfl | hmem2
    · refine ⟨⟨n, r.name, r.description, r.severity⟩, ?_, rfl, rfl⟩
      simp only [violationsFrom, List.mem_append]
      exact Or.inl (mem_lineViolations n hr hfires)
    · obtain ⟨v, hv, h1, h2⟩ := ih hmem2 hr hfires
      refine ⟨v, ?_, h1, h2⟩
      simp only [violationsFrom, List.mem_append]
      exact Or.inr hv

theorem violation_mem_analyze {r : PatternRule} {line : List Char} {code : String}
    (hmem : line ∈ splitLines code.data) (hr : r ∈ dangerousPatterns)
    (hfires : reTest r.pattern line = true) :
    ∃ v ∈ (analyzeSecurity code).violations, v.pattern = r.name ∧ v.severity = r.severity := by
  rw [analyzeSecurity_violations]
  exact mem_violationsFrom hmem hr hfires

theorem allowed_false_of_mem_high {code : String} {v : SecurityViolation}
    (hv : v ∈ (analyzeSecurity code).violations) (hsev : v.severity = Severity.high) :
    (analyzeSecurity code).allowed = false := by
  rw [analyzeSecurity_violations] at hv
  have hany : (violationsOf code).any (fun v => v.severity == Severity.high) = true :=
    List.any_eq_true.mpr ⟨v, hv, by simp [hsev]⟩
  rw [analyzeSecurity_allowed, hany]
  rfl

theorem splitLines_no_newline : ∀ {cs : List Char}, (∀ c ∈ cs, c ≠ '\n') →
    splitLines cs = [cs] := by
  intro cs
  induction cs with
  | nil => intro _; rfl
  | cons c cs ih =>
    intro h
    have hc : c ≠ '\n' := h c (by simp)
    have hrest := ih fun d hd => h d (by simp [hd])
    simp [splitLines, hc, hrest]

theorem string_data_append (a b : String) : (a ++ b).data = a.data ++ b.data := by
  cases a with
  | mk l =>
    cases b with
    | mk m => rfl

theorem splitLines_append_newline {t : List Char} (hnl : ∀ c ∈ t, c ≠ '\n') :
    ∀ xs : List Char, splitLines (xs ++ '\n' :: t) = splitLines xs ++ [t] := by
  intro xs
  induction xs with
  | nil => simp [splitLines, splitLines_no_newline hnl]
  | cons x xs ih =>
    by_cases hx : x = '\n'
    · subst hx
      have h1 : splitLines ('\n' :: (xs ++ '\n' :: t)) = [] :: splitLines (xs ++ '\n' :: t) := by
        simp [splitLines]
      have h2 : splitLines ('\n' :: xs) = [] :: splitLines xs := by
        simp [splitLines]
      rw [List.cons_append, h1, ih, h2]
      rfl
    · obtain ⟨l0, ls, hs⟩ := List.exists_cons_of_ne_nil (splitLines_ne_nil xs)
      have h1 : splitLines (x :: (xs ++ '\n' :: t)) =
          (x :: (splitLines (xs ++ '\n' :: t)).headD []) :: (splitLines (xs ++ '\n' :: t)).tail := by
        simp [splitLines, hx]
      have h2 : splitLines (x :: xs) =
          (x :: (splitLines xs).headD []) :: (splitLines xs).tail := by
        simp [splitLines, hx]
      rw [List.cons_append, h1, ih, h2, hs]
      simp

/-- C9: appending one further newline-free line that matches some
high-severity rule of the catalogue to an already-blocked source leaves the
source blocked: the new line contributes a high-severity violation, so the
`hasHighSeverity` disjunct of the policy still holds. -/
theorem analyzeSecurity_append_high_line_monotone (s t : String)
    (_hblocked : (analyzeSecurity s).allowed = false)
    (hline : '\n' ∉ t.data)
    (hhigh : ∃ r ∈ dangerousPatterns, r.severity = Severity.high ∧ reTest r.pattern t.data = true) :
    (analyzeSecurity (s ++ "\n" ++ t)).allowed = false := by
  obtain ⟨r, hr, hsev, hfires⟩ := hhigh
  have hdata : (s ++ "\n" ++ t).data = s.data ++ '\n' :: t.data := by
    rw [string_data_append, string_data_append]
    simp
  have hmem : t.data ∈ splitLines ((s ++ "\n" ++ t).data) := by
    rw [hdata, splitLines_append_newline (fun c hc he => hline (he ▸ hc)) s.data]
    simp
  obtain ⟨v, hv, _, hvs⟩ := violation_mem_analyze hmem hr hfires
  exact allowed_false_of_mem_high hv (hvs.trans hsev)

/-- Witness for C9 at the concrete blocked source `eval(0)` and the
high-severity line `fetch(0)`. -/
theorem analyzeSecurity_append_high_line_monotone_witness :
    (analyzeSecurity ("eval(0)" ++ "\n" ++ "fetch(0)")).allowed = false :=
  analyzeSecurity_append_high_line_monotone "eval(0)" "fetch(0)" (by decide) (by decide)
    (by decide)

/-- C1: for every input string, the report's `allowed` field is `false`
exactly when some accumulated violation has severity `high` or the number of
accumulated violations exceeds 5; in particular the shown source with six
medium-severity violations and no high-severity violation is blocked. -/
theorem analyzeSecurity_allowed_iff_policy :
    (∀ s : String,
      (analyzeSecurity s).allowed = false ↔
        (((analyzeSecurity s).violations.any fun v => v.severity == Severity.high) = true ∨
          5 < (analyzeSecurity s).violations.length)) ∧
    (analyzeSecurity "import a\nrequire(b)\nglobal.x\nsessionStorage\nsetInterval\nglobal.y").allowed
      = false ∧
    (analyzeSecurity "import a\nrequire(b)\nglobal.x\nsessionStorage\nsetInterval\nglobal.y").violations.length
      = 6 ∧
    ((analyzeSecurity "import a\nrequire(b)\nglobal.x\nsessionStorage\nsetInterval\nglobal.y").violations.all
      fun v => v.severity == Severity.medium) = true := by
  refine ⟨fun s => ?_, by decide, by decide, by decide⟩
  rw [analyzeSecurity_allowed, analyzeSecurity_violations]
  cases ha : (violationsOf s).any fun v => v.severity == Severity.high
  · cases hl : decide (5 < (violationsOf s).length)
    · simp [of_decide_eq_false hl]
    · simp [of_decide_eq_true hl]
  · simp

theorem blocked_of_contains_rule {ci : Bool} {s : String} {sub : List Char} {r : PatternRule}
    (hr : r ∈ dangerousPatterns) (hsev : r.severity = Severity.high) (hne : sub ≠ [])
    (hnl : ∀ p ∈ sub, chEq ci '\n' p = false)
    (himp : ∀ line : List Char, containsB ci sub line = true → reTest r.pattern line = true)
    (h : containsB ci sub s.data = true) :
    (analyzeSecurity s).allowed = false ∧
      ∃ v ∈ (analyzeSecurity s).violations, v.pattern = r.name ∧ v.severity = Severity.high := by
  obtain ⟨line, hmem, hline⟩ := containsB_to_line hne hnl h
  obtain ⟨v, hv, hn, hs2⟩ := violation_mem_analyze hmem hr (himp line hline)
  exact ⟨allowed_false_of_mem_high hv (hs2.trans hsev), v, hv, hn, hs2.trans hsev⟩

/-- C2 (amended): a source containing a case-SENSITIVE occurrence of
`eval(`, `Function(`, `fetch(` or `process.`, or a case-insensitive
occurrence of `while(true)` or `for(;;)`, is analysed as blocked, and a
violation of severity `high` naming the corresponding rule is recorded.
(The four rules without the regex `i` flag are case-sensitive in the
source; case-insensitivity in the original claim fails, see the
counterexample.) -/
theorem analyzeSecurity_dangerous_substring_blocks (s : String) :
    (containsSub "eval(" s = true →
      (analyzeSecurity s).allowed = false ∧
        ∃ v ∈ (analyzeSecurity s).violations, v.pattern = "eval()" ∧ v.severity = Severity.high) ∧
    (containsSub "Function(" s = true →
      (analyzeSecurity s).allowed = false ∧
        ∃ v ∈ (analyzeSecurity s).violations, v.pattern = "Function()" ∧ v.severity = Severity.high) ∧
    (containsSub "fetch(" s = true →
      (analyzeSecurity s).allowed = false ∧
        ∃ v ∈ (analyzeSecurity s).violations, v.pattern = "fetch()" ∧ v.severity = Severity.high) ∧
    (containsSub "process." s = true →
      (analyzeSecurity s).allowed = false ∧
        ∃ v ∈ (analyzeSecurity s).violations, v.pattern = "process object" ∧ v.severity = Severity.high) ∧
    (containsSubCI "while(true)" s = true →
      (analyzeSecurity s).allowed = false ∧
        ∃ v ∈ (analyzeSecurity s).violations, v.pattern = "infinite loop" ∧ v.severity = Severity.high) ∧
    (containsSubCI "for(;;)" s = true →
      (analyzeSecurity s).allowed = false ∧
        ∃ v ∈ (analyzeSecurity s).violations, v.pattern = "infinite loop" ∧ v.severity = Severity.high) := by
  refine ⟨?_, ?_, ?_, ?_, ?_, ?_⟩
  · exact fun h => blocked_of_contains_rule
      (r := ⟨gap2 false "eval".data "(".data, "eval()", "Dynamic code execution", .high⟩)
      (by decide) rfl (by decide) (by decide)
      (fun line hl => reTest_gap2_of_containsB hl) h
  · exact fun h => blocked_of_contains_rule
      (r := ⟨gap2 false "Function".data "(".data, "Function()", "Dynamic function creation", .high⟩)
      (by decide) rfl (by decide) (by decide)
      (fun line hl => reTest_gap2_of_containsB hl) h
  · exact fun h => blocked_of_contains_rule
      (r := ⟨gap2 false "fetch".data "(".data, "fetch()", "Network requests", .high⟩)
      (by decide) rfl (by decide) (by decide)
      (fun line hl => reTest_gap2_of_containsB hl) h
  · exact fun h => blocked_of_contains_rule
      (r := ⟨.lits false "process.".data, "process object", "Process access", .high⟩)
      (by decide) rfl (by decide) (by decide)
      (fun line hl => reTest_lits_of_containsB hl) h
  · exact fun h => blocked_of_contains_rule
      (r := ⟨gap4 true "while".data "(".data "true".data ")".data, "infinite loop",
        "Potential infinite loop", .high⟩)
      (by decide) rfl (by decide) (by decide)
      (fun line hl => reTest_gap4_of_containsB hl) h
  · exact fun h => blocked_of_contains_rule
      (r := ⟨gap4 true "for".data "(".data ";;".data ")".data, "infinite loop",
        "Potential infinite loop", .high⟩)
      (by decide) rfl (by decide) (by decide)
      (fun line hl => reTest_gap4_of_containsB hl) h

/-- C2 counterexample: `EVAL(1)` contains a case-insensitive occurrence of
the substring `eval(`, yet the analyzer allows it and records no violation,
because the source's `/eval\s*\(/` rule carries no `i` flag.  The original
claim, which demands blocking for case-insensitive matches, is therefore
false at this input. -/
theorem analyzeSecurity_case_insensitive_counterexample :
    containsSubCI "eval(" "EVAL(1)" = true ∧
      (analyzeSecurity "EVAL(1)").allowed = true ∧
      (analyzeSecurity "EVAL(1)").violations = [] :=
  ⟨by decide, by decide, by decide⟩

/-- Witness for the amended C2 at two concrete inputs: the case-sensitive
`eval(` branch and the case-insensitive `while(true)` branch. -/
theorem analyzeSecurity_dangerous_substring_blocks_witness :
    ((analyzeSecurity "eval(1)").allowed = false ∧
      ∃ v ∈ (analyzeSecurity "eval(1)").violations,
        v.pattern = "eval()" ∧ v.severity = Severity.high) ∧
    ((analyzeSecurity "x = 1; WHILE(TRUE) {}").allowed = false ∧
      ∃ v ∈ (analyzeSecurity "x = 1; WHILE(TRUE) {}").violations,
        v.pattern = "infinite loop" ∧ v.severity = Severity.high) :=
  ⟨(analyzeSecurity_dangerous_substring_blocks "eval(1)").1 (by decide),
    (analyzeSecurity_dangerous_substring_blocks "x = 1; WHILE(TRUE) {}").2.2.2.2.1 (by decide)⟩

/-- C3 counterexample: on the empty string the analyzer does NOT return
`complexityScore = 0`: splitting the empty string yields one (empty) line,
and the `lines.length / 10` term contributes `1/10` (in JS float arithmetic,
`0.1`), which survives `Math.min (·, 100)`. -/
theorem analyzeSecurity_empty_score_counterexample :
    ¬ ((analyzeSecurity "").allowed = true ∧
        (analyzeSecurity "").violations = [] ∧
        (analyzeSecurity "").complexityScore = 0) := by
  intro h
  have h1 : (analyzeSecurity "").complexityScore = 1 / 10 := by
    with_unfolding_all decide
  rw [h1] at h
  have h2 : ((1 : ℚ) / 10) ≠ 0 := by norm_num
  exact h2 h.2.2

/-- C3 (amended): on the empty string the analyzer reports `allowed = true`
and no violations, but the complexity score is `1/10` (JS `0.1`), not `0`,
coming from the single empty line produced by `''.split('\n')`. -/
theorem analyzeSecurity_empty_string_report :
    (analyzeSecurity "").allowed = true ∧
      (analyzeSecurity "").violations = [] ∧
      (analyzeSecurity "").complexityScore = 1 / 10 :=
  ⟨by decide, by decide, by with_unfolding_all decide⟩

/-- C4 counterexample: for the one-line source `x` (no violations, no
`function` or `class` occurrence) the complexity score is `1/10`, which is
not an integer; the claim that the score is always an integer is false at
this input. -/
theorem complexityScore_not_integer_counterexample :
    (analyzeSecurity "x").complexityScore = 1 / 10 ∧
      ¬ ∃ n : ℤ, (analyzeSecurity "x").complexityScore = (n : ℚ) := by
  have h1 : (analyzeSecurity "x").complexityScore = 1 / 10 := by
    with_unfolding_all decide
  refine ⟨h1, ?_⟩
  rintro ⟨n, hn⟩
  rw [h1] at hn
  have hden : ((1 : ℚ) / 10).den = 10 := by with_unfolding_all decide
  have hd := congrArg Rat.den hn
  rw [Rat.den_intCast, hden] at hd
  exact absurd hd (by norm_num)

/-- C4 (amended): the complexity score equals
`min(10·violations + lines/10 + 5·occurrences of "function" +
3·occurrences of "class", 100)` computed in exact (float, in JS) division,
and always lies in the interval [0,100]; it is a rational and in general
not an integer, the `lines/10` term not being integer division. -/
theorem complexityScore_formula_and_bounds (s : String) :
    (analyzeSecurity s).complexityScore =
      ratMin (((violationsOf s).length : ℚ) * 10 + ((splitLines s.data).length : ℚ) / 10 +
        (countOccurs "function".data s.data : ℚ) * 5 +
        (countOccurs "class".data s.data : ℚ) * 3) 100 ∧
    0 ≤ (analyzeSecurity s).complexityScore ∧
    (analyzeSecurity s).complexityScore ≤ 100 := by
  have h : (analyzeSecurity s).complexityScore =
      ratMin (((violationsOf s).length : ℚ) * 10 + ((splitLines s.data).length : ℚ) / 10 +
        (countOccurs "function".data s.data : ℚ) * 5 +
        (countOccurs "class".data s.data : ℚ) * 3) 100 := rfl
  refine ⟨h, ?_, ?_⟩
  · rw [h, ratMin_eq_min]
    refine le_min ?_ (by norm_num)
    positivity
  · rw [h, ratMin_eq_min]
    exact min_le_right _ _

/-- C10 counterexample: the claim that the timer branch never determines
the outcome is false of the program.  A script whose top-level `return`
hands out a never-settling thenable — realised e.g. by the source
`return new Promise(() => {})`, which the analyzer allows — leaves the
evaluation promise pending when the race is constructed, so the timer's
rejection wins and the returned result carries the timeout error message. -/
theorem executeJavaScript_pending_return_counterexample :
    (analyzeSecurity "return new Promise(() => \x7b\x7d)").allowed = true ∧
      executeJavaScript ⟨[], ScriptOutcome.thenable ThenableFate.never⟩ 10 =
        ⟨false, "", "Execution timeout after 10ms", 1⟩ :=
  ⟨by decide, rfl⟩

/-- C10 (amended): for every script that completes synchronously — by
fall-through, by a throw, or by a top-level `return` of a non-thenable
value — the evaluation promise is already settled when the race is
constructed, the timer branch never determines the outcome, and the result
is independent of the timeout.  The exception, refuting the original
claim, is a top-level `return` of a thenable: if it has not settled when
the timer fires — in particular if it never settles — the timer's
rejection determines the returned result. -/
theorem executeJavaScript_race_analysis (sc : Script) :
    ((sc.outcome = ScriptOutcome.normal ∨ (∃ m, sc.outcome = ScriptOutcome.thrown m) ∨
        (∃ v, sc.outcome = ScriptOutcome.returned v)) →
      ∀ t u : Nat, executeJavaScript sc t = executeJavaScript sc u) ∧
    (sc.outcome = ScriptOutcome.thenable ThenableFate.never →
      ∀ t : Nat, executeJavaScript sc t = ⟨false, (runEvents sc).output, timeoutMessage t, 1⟩) ∧
    (∀ d v t, sc.outcome = ScriptOutcome.thenable (ThenableFate.fulfilled d v) →
      t * 1000 < d →
      executeJavaScript sc t = ⟨false, (runEvents sc).output, timeoutMessage t, 1⟩) := by
  refine ⟨?_, ?_, ?_⟩
  · rintro (h | ⟨m, h⟩ | ⟨v, h⟩) t u <;>
      simp [executeJavaScript, settleRace, evalPromise, raceTimer, h]
  · intro h t
    simp [executeJavaScript, settleRace, evalPromise, raceTimer, finishExec, h]
  · intro d v t h hlt
    have hn : ¬ (d ≤ t * 1000) := Nat.not_le.mpr hlt
    simp [executeJavaScript, settleRace, evalPromise, raceTimer, finishExec, h, hn]

/-- Witness for the amended C10: a synchronous script's result is
independent of the timeout, and a never-settling thenable return lets the
timer determine the result. -/
theorem executeJavaScript_race_analysis_witness :
    executeJavaScript ⟨[], ScriptOutcome.normal⟩ 3 =
        executeJavaScript ⟨[], ScriptOutcome.normal⟩ 99 ∧
      executeJavaScript ⟨[], ScriptOutcome.thenable ThenableFate.never⟩ 10 =
        ⟨false, "", timeoutMessage 10, 1⟩ :=
  ⟨(executeJavaScript_race_analysis ⟨[], ScriptOutcome.normal⟩).1 (Or.inl rfl) 3 99,
    (executeJavaScript_race_analysis ⟨[], ScriptOutcome.thenable ThenableFate.never⟩).2.1 rfl 10⟩

/-- C5 counterexample: a script that calls `console.error('x')` and then
falls through throws nothing, yet the result's `error` field is `"x\n"`
rather than the empty string: the `error` channel accumulates into the
`error` variable and the success path does not reset it. -/
theorem executeJavaScript_error_channel_counterexample :
    (executeJavaScript ⟨[ConsoleEvent.error [⟨false, "x", "x"⟩]], ScriptOutcome.normal⟩ 10).success
        = true ∧
      (executeJavaScript ⟨[ConsoleEvent.error [⟨false, "x", "x"⟩]], ScriptOutcome.normal⟩ 10).error
        = "x\n" ∧
      "x\n" ≠ "" :=
  ⟨rfl, rfl, by decide⟩

theorem finishExec_output (st : ConsoleState) (raced : Except String Fulfilled) :
    (finishExec st raced).output = st.output := by
  cases raced with
  | error msg => rfl
  | ok f =>
    cases f with
    | wrapper r => cases hr : r.success <;> simp [finishExec, hr]
    | user v =>
      cases v with
      | nullish m => rfl
      | attrs b e => cases b <;> simp [finishExec]

/-- C5 (amended): `executeJavaScript` never lets an exception escape —
every path yields a structured result whose `output` is the accumulated
output buffer.  A thrown error is caught and mapped to success `false`,
exit code 1, and `error` equal to the thrown message (overwriting any
accumulated `console.error` text).  A script that falls through normally
gives success `true`, exit code 0, and `error` equal to the text
accumulated by the `console.error` channel — empty only when that channel
was never used.  A script that instead exits through its own top-level
`return` is judged by the returned value: a nullish value trips a caught
`TypeError` (success `false`, exit code 1); a value whose `.success` member
is falsy — e.g. from the source `return 42` — throws nothing yet still
yields a non-successful result with exit code 1; only a value with truthy
`.success` is treated as success. -/
theorem executeJavaScript_outcome_mapping (sc : Script) (t : Nat) :
    ((executeJavaScript sc t).output = (runEvents sc).output) ∧
    (∀ msg, sc.outcome = ScriptOutcome.thrown msg →
      executeJavaScript sc t = ⟨false, (runEvents sc).output, msg, 1⟩) ∧
    (sc.outcome = ScriptOutcome.normal →
      executeJavaScript sc t = ⟨true, (runEvents sc).output, (runEvents sc).error, 0⟩) ∧
    (∀ m, sc.outcome = ScriptOutcome.returned (UserValue.nullish m) →
      executeJavaScript sc t = ⟨false, (runEvents sc).output, m, 1⟩) ∧
    (∀ e, sc.outcome = ScriptOutcome.returned (UserValue.attrs false e) →
      executeJavaScript sc t = ⟨false, (runEvents sc).output, e, 1⟩) ∧
    (∀ e, sc.outcome = ScriptOutcome.returned (UserValue.attrs true e) →
      executeJavaScript sc t = ⟨true, (runEvents sc).output, (runEvents sc).error, 0⟩) := by
  refine ⟨finishExec_output _ _, ?_, ?_, ?_, ?_, ?_⟩
  · intro msg h
    simp [executeJavaScript, settleRace, evalPromise, raceTimer, finishExec, h]
  · intro h
    simp [executeJavaScript, settleRace, evalPromise, raceTimer, finishExec, h]
  · intro m h
    simp [executeJavaScript, settleRace, evalPromise, raceTimer, finishExec, h]
  · intro e h
    simp [executeJavaScript, settleRace, evalPromise, raceTimer, finishExec, h]
  · intro e h
    simp [executeJavaScript, settleRace, evalPromise, raceTimer, finishExec, h]

/-- Witness for the amended C5 at a throwing script, a normally-terminating
script that used `console.error`, and a script returning a value with a
falsy `.success` member. -/
theorem executeJavaScript_outcome_mapping_witness :
    executeJavaScript ⟨[], ScriptOutcome.thrown "boom"⟩ 5 = ⟨false, "", "boom", 1⟩ ∧
      executeJavaScript ⟨[ConsoleEvent.error [⟨false, "x", "x"⟩]], ScriptOutcome.normal⟩ 5 =
        ⟨true, "", "x\n", 0⟩ ∧
      executeJavaScript ⟨[], ScriptOutcome.returned (UserValue.attrs false "u")⟩ 5 =
        ⟨false, "", "u", 1⟩ :=
  ⟨(executeJavaScript_outcome_mapping ⟨[], ScriptOutcome.thrown "boom"⟩ 5).2.1 "boom" rfl,
    (executeJavaScript_outcome_mapping ⟨[ConsoleEvent.error [⟨false, "x", "x"⟩]],
      ScriptOutcome.normal⟩ 5).2.2.1 rfl,
    (executeJavaScript_outcome_mapping ⟨[], ScriptOutcome.returned (UserValue.attrs false "u")⟩
      5).2.2.2.2.1 "u" rfl⟩

/-- C7 counterexample: the `error` channel does not append to the output
buffer that becomes the result's `output` field — it appends to the
separate error buffer; and the scope has channels `log`, `error`, `warn`,
`info`, with no `debug` channel.  The claim that every channel appends to
the single output buffer is false at this input. -/
theorem consoleError_buffer_counterexample :
    (applyEvent ⟨"", ""⟩ (ConsoleEvent.error [⟨false, "x", "x"⟩])).output = "" ∧
      (applyEvent ⟨"", ""⟩ (ConsoleEvent.error [⟨false, "x", "x"⟩])).error = "x\n" ∧
      "x\n" ≠ "" :=
  ⟨rfl, rfl, by decide⟩

/-- C7 (amended): the restricted scope exposes exactly the four channels
`log`, `error`, `warn` and `info`.  `log` appends the space-joined
arguments (objects serialised to JSON) plus newline to the output buffer;
`warn` and `info` do the same with `[WARN] `/`[INFO] ` prefixes and plain
`String` conversion; `error` instead appends to the separate error buffer,
which surfaces in the result's `error` field (not `output`). -/
theorem sandboxConsole_channel_effects (args : List JSValue) (st : ConsoleState) :
    applyEvent st (ConsoleEvent.log args) =
      ⟨st.output ++ joinSpace (args.map renderLogArg) ++ "\n", st.error⟩ ∧
    applyEvent st (ConsoleEvent.warn args) =
      ⟨st.output ++ "[WARN] " ++ joinSpace (args.map JSValue.asString) ++ "\n", st.error⟩ ∧
    applyEvent st (ConsoleEvent.info args) =
      ⟨st.output ++ "[INFO] " ++ joinSpace (args.map JSValue.asString) ++ "\n", st.error⟩ ∧
    applyEvent st (ConsoleEvent.error args) =
      ⟨st.output, st.error ++ joinSpace (args.map JSValue.asString) ++ "\n"⟩ ∧
    (∀ e : ConsoleEvent, (∃ a, e = ConsoleEvent.log a) ∨ (∃ a, e = ConsoleEvent.error a) ∨
      (∃ a, e = ConsoleEvent.warn a) ∨ (∃ a, e = ConsoleEvent.info a)) := by
  refine ⟨rfl, rfl, rfl, rfl, fun e => ?_⟩
  cases e with
  | log a => exact Or.inl ⟨a, rfl⟩
  | error a => exact Or.inr (Or.inl ⟨a, rfl⟩)
  | warn a => exact Or.inr (Or.inr (Or.inl ⟨a, rfl⟩))
  | info a => exact Or.inr (Or.inr (Or.inr ⟨a, rfl⟩))

/-- C6 counterexample: in an execution where the timer does fire before
the evaluation settles — a script whose top-level `return` hands out a
never-settling thenable — the returned result is success `false` with exit
code 1 as claimed, but its error text for a 10-second timeout is
`Execution timeout after 10ms`, not `Execution timeout after 10s`:
line 332 interpolates the seconds value with an `ms` suffix. -/
theorem timeoutMessage_unit_counterexample :
    executeJavaScript ⟨[], ScriptOutcome.thenable ThenableFate.never⟩ 10 =
      ⟨false, "", "Execution timeout after 10ms", 1⟩ ∧
      "Execution timeout after 10ms" ≠ "Execution timeout after 10s" :=
  ⟨rfl, by decide⟩

/-- C6 (amended): whenever the timer fires before the evaluation settles —
possible exactly when the script's top-level `return` hands out a thenable
that is still pending when the timer's delay of `timeoutSeconds * 1000`
milliseconds elapses — the returned result is success `false` with exit
code 1 and error text exactly `Execution timeout after Nms`, where `N` is
the `timeoutSeconds` argument: the number is the seconds value, but the
label written on line 332 says `ms`. -/
theorem timer_rejection_mapping (sc : Script) (t : Nat) :
    (sc.outcome = ScriptOutcome.thenable ThenableFate.never →
      executeJavaScript sc t = ⟨false, (runEvents sc).output, timeoutMessage t, 1⟩) ∧
    (∀ d v, sc.outcome = ScriptOutcome.thenable (ThenableFate.fulfilled d v) →
      t * 1000 < d →
      executeJavaScript sc t = ⟨false, (runEvents sc).output, timeoutMessage t, 1⟩) ∧
    (∀ d m, sc.outcome = ScriptOutcome.thenable (ThenableFate.rejected d m) →
      t * 1000 < d →
      executeJavaScript sc t = ⟨false, (runEvents sc).output, timeoutMessage t, 1⟩) ∧
    timeoutMessage t = "Execution timeout after " ++ toString t ++ "ms" := by
  refine ⟨?_, ?_, ?_, rfl⟩
  · intro h
    simp [executeJavaScript, settleRace, evalPromise, raceTimer, finishExec, h]
  · intro d v h hlt
    have hn : ¬ (d ≤ t * 1000) := Nat.not_le.mpr hlt
    simp [executeJavaScript, settleRace, evalPromise, raceTimer, finishExec, h, hn]
  · intro d m h hlt
    have hn : ¬ (d ≤ t * 1000) := Nat.not_le.mpr hlt
    simp [executeJavaScript, settleRace, evalPromise, raceTimer, finishExec, h, hn]

/-- Witness for the amended C6: a never-settling thenable return with a
7-second timeout. -/
theorem timer_rejection_mapping_witness :
    executeJavaScript ⟨[], ScriptOutcome.thenable ThenableFate.never⟩ 7 =
      ⟨false, "", "Execution timeout after 7ms", 1⟩ :=
  (timer_rejection_mapping ⟨[], ScriptOutcome.thenable ThenableFate.never⟩ 7).1 rfl

/-- C8 counterexample: the block response's `execution_time` is the elapsed
wall-clock time `(Date.now() - startTime) / 1000` measured at the return
point, not the constant 0: with 2 elapsed seconds the field is 2. -/
theorem handleExecute_block_time_counterexample :
    (analyzeSecurity "eval(1)").allowed = false ∧
      (handleExecute "eval(1)" ⟨[], ScriptOutcome.normal⟩ 10 2).error
        = "Code blocked by security policy" ∧
      (handleExecute "eval(1)" ⟨[], ScriptOutcome.normal⟩ 10 2).execution_time = 2 ∧
      (2 : ℚ) ≠ 0 := by
  refine ⟨by decide, ?_, ?_, by norm_num⟩
  · have h : (analyzeSecurity "eval(1)").allowed = false := by decide
    simp [handleExecute, h]
  · have h : (analyzeSecurity "eval(1)").allowed = false := by decide
    simp [handleExecute, h]

/-- C8 (amended): when the analysis blocks the submitted code, the handler
responds with success `false`, empty output, error exactly
`Code blocked by security policy`, exit code 1, the full blocking security
report (whose `allowed` is false by hypothesis), and `execution_time` equal
to the elapsed wall-clock seconds measured at the return point — not the
constant 0. -/
theorem handleExecute_block_response (code : String) (sc : Script) (t : Nat) (e : ℚ)
    (hblocked : (analyzeSecurity code).allowed = false) :
    handleExecute code sc t e =
      ⟨false, "", "Code blocked by security policy", 1, e, analyzeSecurity code⟩ := by
  simp [handleExecute, hblocked]

/-- Witness for the amended C8 at the blocked source `eval(1)`. -/
theorem handleExecute_block_response_witness :
    handleExecute "eval(1)" ⟨[], ScriptOutcome.normal⟩ 10 0 =
      ⟨false, "", "Code blocked by security policy", 1, 0, analyzeSecurity "eval(1)"⟩ :=
  handleExecute_block_response "eval(1)" ⟨[], ScriptOutcome.normal⟩ 10 0 (by decide)
